import Mathlib

/-!
# OpenCL Game of Life host program (`main.c`): embedding and verification

The host program parses its command line, chooses a dispatch shape from a
table of divisors of 24, and then runs a tick loop that enqueues the `GOL`
kernel, rebinds the two kernel buffer arguments and, when rendering is on,
reads one buffer back, polls the keyboard and draws.

The embedding is a shallow one.

* Command-line parsing (`main.c` lines 125-138) is a step function on the
  parser state, iterated under a fuel bound because the C loop is not
  guaranteed to make progress.
* The tick loop (lines 234-283) is a step function on a simulation state.
  The statuses returned by the OpenCL runtime and the keys returned by
  `getch` are inputs, given by a `Runtime` record indexed by the tick at
  which the call is made.  The state records the two kernel-argument
  bindings as main last set them with `clSetKernelArg`, the `err` variable,
  the contents of both device buffers and of the host array, and the trace of
  the calls main made.  A call is modelled as carried out, in program order,
  whatever status it reports: the status only flows into `err`.
* `tick`, `err`, `kernelCount` are C `int`s.  They are embedded as
  mathematical integers: `tick` starts at 0 and only grows by one per
  iteration, signed overflow is undefined in C, so the embedding describes
  the first `2^31 - 1` iterations of every run.  `%` on `int` is C's
  truncating remainder (`Int.tmod`) and `|` is two's complement bitwise or
  (`Int.lor`).
-/

namespace GOL

/-! ## Constants -/

/-- The lattice side length, `#define GRID_SIZE 24`. -/
def GRID_SIZE : Nat := 24

/-- The OpenCL status `CL_SUCCESS`. -/
def CL_SUCCESS : Int := 0

/-- The C library's `EXIT_FAILURE`. -/
def EXIT_FAILURE : Int := 1

/-- The table `int multiples[] = {24, 12, 8, 4, 2, 1}` of line 113. -/
def multiples : List Nat := [24, 12, 8, 4, 2, 1]

/-- The default `int tickFinal = 1000` of line 117. -/
def tickFinalDefault : Int := 1000

/-- The code of the quit key, the character constant `'q'`. -/
def KEY_Q : Int := 113

/-! ## Command-line parsing (lines 112-141) -/

/-- The variables the argument loop reads and writes. -/
structure ArgState where
  argPtr : Nat
  output : Bool
  kernelCount : Int
  deriving DecidableEq, Repr

/-- The values of `output` and `kernelCount` before parsing (lines 112, 123);
`argPtr` is assigned 1 on entry to the loop (line 127). -/
def argInit : ArgState := { argPtr := 1, output := true, kernelCount := 2 }

/-- The characters `isspace` accepts in the C locale. -/
def isSpaceC (c : Char) : Bool :=
  c.toNat = 32 || (9 ≤ c.toNat && c.toNat ≤ 13)

/-- The value of a run of decimal digits, most significant first. -/
def digitsValue (ds : List Char) : Nat :=
  ds.foldl (fun acc c => 10 * acc + (c.toNat - 48)) 0

/-- The `%d` conversion of the C library applied to a string: leading white
space is skipped, an optional sign is read, then the longest run of decimal
digits; with no digit the conversion fails.  Values are not reduced to the
range of `int`. -/
def scanInt (s : String) : Option Int :=
  let cs := s.toList.dropWhile isSpaceC
  let signed : Bool × List Char :=
    match cs with
    | '-' :: r => (true, r)
    | '+' :: r => (false, r)
    | r => (false, r)
  let ds := signed.2.takeWhile Char.isDigit
  if ds.isEmpty then none
  else some (if signed.1 then - (digitsValue ds : Int) else (digitsValue ds : Int))

/-- The call `sscanf(arg, "%d", &kernelCount)`: the new value of
`kernelCount`, which is left as it was when the conversion fails. -/
def sscanf_d (arg : String) (kernelCount : Int) : Int :=
  (scanInt arg).getD kernelCount

/-- What one iteration of the argument loop does. -/
inductive ArgStep where
  /-- The body ran to its end, leaving this state. -/
  | advance (s : ArgState)
  /-- The flag `-n` was the last argument: `argv[argPtr + 1]` is `argv[argc]`,
  the null pointer, and it is handed to `sscanf`. -/
  | nullArg
  deriving DecidableEq, Repr

/-- The body of the loop of lines 128-137, run with `argPtr < argc`.
`argv` is the whole argument vector, `argv[0]` included. -/
def argStep (argv : List String) (s : ArgState) : ArgStep :=
  match argv[s.argPtr]? with
  | none => .advance s
  | some a =>
    if a = "-o" then
      .advance { s with output := false, argPtr := s.argPtr + 1 }
    else if a = "-n" then
      match argv[s.argPtr + 1]? with
      | none => .nullArg
      | some v =>
        .advance { s with kernelCount := sscanf_d v s.kernelCount - 1,
                          argPtr := s.argPtr + 2 }
    else .advance s

/-- How the argument loop ends. -/
inductive ParseResult where
  /-- The loop condition `argPtr < argc` became false. -/
  | done (s : ArgState)
  /-- The loop read `argv[argc]`. -/
  | nullArg (s : ArgState)
  /-- The iteration bound ran out with the loop still to be continued. -/
  | spinning (s : ArgState)
  deriving DecidableEq, Repr

/-- The loop `while (argPtr < argc)` of lines 128-137, for at most `fuel`
evaluations of its condition. -/
def argLoop (argv : List String) : Nat → ArgState → ParseResult
  | 0, s => .spinning s
  | fuel + 1, s =>
    if s.argPtr < argv.length then
      match argStep argv s with
      | .advance s1 => argLoop argv fuel s1
      | .nullArg => .nullArg s
    else .done s

/-- Lines 125-138: the loop is entered only when `argc > 1`. -/
def parseArgs (argv : List String) (fuel : Nat) : ParseResult :=
  if argv.length > 1 then argLoop argv fuel argInit else .done argInit

/-- The test of line 140, under which the message
"Kernel count must be on [1,6]" is printed.  Nothing else happens there. -/
def rangeMessage (kernelCount : Int) : Bool :=
  decide (kernelCount < 0) || decide (kernelCount ≥ 6)

/-! ## Dispatch shape (lines 230-231, 237) -/

/-- The array read `multiples[kernelCount]`: `none` when the index is outside
the six elements of the table. -/
def multiplesAt (kernelCount : Int) : Option Nat :=
  if 0 ≤ kernelCount then multiples[kernelCount.toNat]? else none

/-- The array `workerSizes` of line 230. -/
def workerSizes (kernelCount : Int) : Option (Nat × Nat) :=
  (multiplesAt kernelCount).map (fun m => (m, m))

/-- The array `workGroupSizes` of line 231. -/
def workGroupSizes : Nat × Nat := (24, 24)

/-- The two extents of a dispatch, named by the parameter of
`clEnqueueNDRangeKernel` they are passed as. -/
structure NDRange where
  global_work_size : Nat × Nat
  local_work_size : Nat × Nat
  deriving DecidableEq, Repr

/-- The extents passed at line 237: `workGroupSizes` is the fifth argument
(global work size) and `workerSizes` the sixth (local work size). -/
def dispatchShape (kernelCount : Int) : Option NDRange :=
  (workerSizes kernelCount).map
    (fun w => { global_work_size := workGroupSizes, local_work_size := w })

/-! ## The tick loop (lines 218-288) -/

/-- The two device buffers. -/
inductive Buf where
  | grid
  | gridSwp
  deriving DecidableEq, Repr

/-- The values the environment returns to main inside the loop, indexed by
the tick at which the call is made. -/
structure Runtime where
  /-- Status of `clEnqueueNDRangeKernel` (line 237). -/
  enqueueNDRange : Nat → Int
  /-- Status of the `clSetKernelArg` call for argument 1 (lines 241, 244). -/
  setArg1 : Nat → Int
  /-- Status of the `clSetKernelArg` call for argument 2 (lines 242, 245). -/
  setArg2 : Nat → Int
  /-- Status of `clEnqueueReadBuffer` (lines 254, 256). -/
  readBuffer : Nat → Int
  /-- Value of `getch()` (line 264). -/
  getch : Nat → Int

/-- The calls main makes inside the loop, as they appear in the trace. -/
inductive Event where
  /-- A kernel dispatch at `tick`, with arguments 1 and 2 bound to `src`, `dst`. -/
  | dispatch (tick : Int) (src dst : Buf)
  /-- A blocking read of `buf` into the host array at `tick`. -/
  | read (tick : Int) (buf : Buf)
  /-- A call of `getch` at `tick`. -/
  | poll (tick : Int)
  /-- The drawing loop, `refresh` and `sleep` at `tick`. -/
  | draw (tick : Int)
  deriving DecidableEq, Repr

/-- The state of main at the head of the tick loop.  `α` is the type of a
lattice. -/
structure Sim (α : Type) where
  tick : Int
  err : Int
  /-- The buffer last set as kernel argument 1. -/
  arg1 : Buf
  /-- The buffer last set as kernel argument 2. -/
  arg2 : Buf
  /-- Contents of the device buffer `grid`. -/
  gridMem : α
  /-- Contents of the device buffer `gridSwp`. -/
  gridSwpMem : α
  /-- Contents of the host array `initGrid`. -/
  initGrid : α
  trace : List Event

/-- The contents of a device buffer. -/
def Sim.mem {α : Type} (s : Sim α) : Buf → α
  | .grid => s.gridMem
  | .gridSwp => s.gridSwpMem

/-- The state on entry to the loop: `initGrid` holds the initial lattice and
has been written to `grid` (line 211), the arguments are bound as in lines
221-222, `err` is `CL_SUCCESS` after the test of line 223.  `gridSwp` is
created without contents; `junk` stands for whatever it holds. -/
def simInit {α : Type} (g0 junk : α) : Sim α :=
  { tick := 0, err := CL_SUCCESS, arg1 := .grid, arg2 := .gridSwp,
    gridMem := g0, gridSwpMem := junk, initGrid := g0, trace := [] }

/-- Lines 237-246: the dispatch and the rebinding of the arguments.  The
kernel `f` is run from the buffer bound as argument 1 into the buffer bound
as argument 2; `err` is assigned the status of the dispatch and then or-ed
with the statuses of the two `clSetKernelArg` calls. -/
def dispatchPhase {α : Type} (f : α → α) (rt : Runtime) (s : Sim α) : Sim α :=
  let n := s.tick.toNat
  let out := f (s.mem s.arg1)
  let e0 := rt.enqueueNDRange n
  let e2 := Int.lor (Int.lor e0 (rt.setArg1 n)) (rt.setArg2 n)
  { tick := s.tick
    err := e2
    arg1 := if Int.tmod s.tick 2 = 1 then .grid else .gridSwp
    arg2 := if Int.tmod s.tick 2 = 1 then .gridSwp else .grid
    gridMem := if s.arg2 = .grid then out else s.gridMem
    gridSwpMem := if s.arg2 = .gridSwp then out else s.gridSwpMem
    initGrid := s.initGrid
    trace := s.trace ++ [Event.dispatch s.tick s.arg1 s.arg2] }

/-- The buffer named in the read of lines 253-256. -/
def readTarget (tick : Int) : Buf :=
  if Int.tmod tick 2 = 1 then .gridSwp else .grid

/-- How one iteration of the tick loop ends. -/
inductive Step (α : Type) where
  /-- The body reached `tick++`. -/
  | next (s : Sim α)
  /-- The body left the loop by `break` (line 266). -/
  | brk (s : Sim α)
  /-- The body returned from main (line 260). -/
  | ret (code : Int) (s : Sim α)

/-- The body of the tick loop, lines 237-282. -/
def loopBody {α : Type} (f : α → α) (rt : Runtime) (output : Bool)
    (s : Sim α) : Step α :=
  let d := dispatchPhase f rt s
  if output then
    let n := s.tick.toNat
    let r : Sim α :=
      { d with err := rt.readBuffer n
               initGrid := d.mem (readTarget s.tick)
               trace := d.trace ++ [Event.read s.tick (readTarget s.tick)] }
    if r.err ≠ CL_SUCCESS then .ret EXIT_FAILURE r
    else
      let p : Sim α := { r with trace := r.trace ++ [Event.poll s.tick] }
      if rt.getch n = KEY_Q then .brk p
      else .next { p with tick := s.tick + 1, trace := p.trace ++ [Event.draw s.tick] }
  else .next { d with tick := s.tick + 1 }

/-- How a bounded run of the tick loop stands. -/
inductive LoopResult (α : Type) where
  /-- The iteration bound ran out; the state is the one at the loop head. -/
  | running (s : Sim α)
  /-- Main returned with this exit status. -/
  | returned (code : Int) (s : Sim α)

/-- Lines 285-300: the status test after the loop and the normal return. -/
def afterLoop {α : Type} (s : Sim α) : LoopResult α :=
  if s.err ≠ CL_SUCCESS then .returned EXIT_FAILURE s else .returned 0 s

/-- The loop condition of line 234. -/
def loopCond {α : Type} (output : Bool) (tickFinal : Int) (s : Sim α) : Bool :=
  decide (s.tick ≤ tickFinal) || output

/-- The loop of lines 234-283 followed by lines 285-300, for at most `fuel`
iterations. -/
def mainLoop {α : Type} (f : α → α) (rt : Runtime) (output : Bool)
    (tickFinal : Int) : Nat → Sim α → LoopResult α
  | 0, s => .running s
  | fuel + 1, s =>
    if loopCond output tickFinal s then
      match loopBody f rt output s with
      | .next s1 => mainLoop f rt output tickFinal fuel s1
      | .brk s1 => afterLoop s1
      | .ret code s1 => .returned code s1
    else afterLoop s

/-- The state a bounded run stands in. -/
def LoopResult.state {α : Type} : LoopResult α → Sim α
  | .running s => s
  | .returned _ s => s

/-- The exit status of a bounded run, when main has returned. -/
def LoopResult.exitCode {α : Type} : LoopResult α → Option Int
  | .running _ => none
  | .returned code _ => some code

/-- The bindings of the dispatches of a trace, in order. -/
def dispatches : List Event → List (Buf × Buf)
  | [] => []
  | .dispatch _ src dst :: es => (src, dst) :: dispatches es
  | _ :: es => dispatches es

/-- The ticks at which a trace has a dispatch, in order. -/
def dispatchTicks : List Event → List Int
  | [] => []
  | .dispatch t _ _ :: es => t :: dispatchTicks es
  | _ :: es => dispatchTicks es

/-- The buffers read back in a trace, in order. -/
def reads : List Event → List Buf
  | [] => []
  | .read _ b :: es => b :: reads es
  | _ :: es => reads es

/-- Whether an event is a dispatch. -/
def Event.isDispatch : Event → Bool
  | .dispatch _ _ _ => true
  | _ => false

/-! ## The whole of main, from the command line to the exit status -/

/-- How a bounded run of main stands.  Device and terminal initialisation
(lines 143-226) is taken to succeed. -/
inductive MainResult (α : Type) where
  /-- The argument loop did not end within the bound. -/
  | parseSpin
  /-- The argument loop handed `argv[argc]` to `sscanf`. -/
  | parseNull
  /-- Line 230 read `multiples` outside its bounds; `warned` tells whether the
  message of line 141 was printed before. -/
  | tableOutOfBounds (warned : Bool) (kernelCount : Int)
  /-- The tick loop was entered with this shape. -/
  | looped (warned : Bool) (shape : NDRange) (r : LoopResult α)

/-- The function `main`, with the initial lattice `g0`, the kernel `f` and
the runtime's answers as inputs. -/
def main {α : Type} (f : α → α) (rt : Runtime) (g0 junk : α)
    (argv : List String) (fuel : Nat) : MainResult α :=
  match parseArgs argv fuel with
  | .spinning _ => .parseSpin
  | .nullArg _ => .parseNull
  | .done a =>
    match dispatchShape a.kernelCount with
    | none => .tableOutOfBounds (rangeMessage a.kernelCount) a.kernelCount
    | some shape =>
      .looped (rangeMessage a.kernelCount) shape
        (mainLoop f rt a.output tickFinalDefault fuel (simInit g0 junk))

/-- The state an iteration of the tick loop ends in. -/
def Step.state {α : Type} : Step α → Sim α
  | .next s => s
  | .brk s => s
  | .ret _ s => s

/-! ## Auxiliary definitions used to state the loop invariant -/

/-- Proof device: the buffer holding the current generation at the head of
iteration `n`. -/
def sourceAt (n : Nat) : Buf := if n % 2 = 0 then .grid else .gridSwp

/-- Proof device: the other buffer. -/
def destAt (n : Nat) : Buf := if n % 2 = 0 then .gridSwp else .grid

/-- Proof device: the invariant of the tick loop at the head of iteration
`n`. -/
structure HeadInv {α : Type} (f : α → α) (g0 : α) (n : Nat) (s : Sim α) : Prop where
  tick : s.tick = (n : Int)
  arg1 : s.arg1 = sourceAt n
  arg2 : s.arg2 = destAt n
  src : s.mem (sourceAt n) = f^[n] g0

/-- The trace of the tick loop of a bounded run of main; empty when the loop
was not reached. -/
def MainResult.trace {α : Type} : MainResult α → List Event
  | .looped _ _ r => r.state.trace
  | _ => []

/-- The exit status of a bounded run of main, when main has returned. -/
def MainResult.exitCode {α : Type} : MainResult α → Option Int
  | .looped _ _ r => r.exitCode
  | _ => none

/-- The host array at the point a bounded run of main stands; `none` when the
loop was not reached. -/
def MainResult.hostGrid {α : Type} : MainResult α → Option α
  | .looped _ _ r => some r.state.initGrid
  | _ => none

/-- A runtime in which every call succeeds and no key is pressed. -/
def quietRuntime : Runtime :=
  { enqueueNDRange := fun _ => 0, setArg1 := fun _ => 0, setArg2 := fun _ => 0,
    readBuffer := fun _ => 0, getch := fun _ => -1 }


/-- The status `CL_OUT_OF_RESOURCES`. -/
def CL_OUT_OF_RESOURCES : Int := -5

/-- A runtime whose first kernel dispatch fails and in which every other call
succeeds and no key is pressed. -/
def failFirstDispatch : Runtime :=
  { quietRuntime with
    enqueueNDRange := fun n => if n = 0 then CL_OUT_OF_RESOURCES else CL_SUCCESS }

/-- A runtime whose first kernel dispatch fails, in which every other call
succeeds, and in which `q` is read at tick 1. -/
def failFirstThenQuit : Runtime :=
  { failFirstDispatch with getch := fun n => if n = 1 then KEY_Q else -1 }

/-! ## Basic facts -/

theorem tmod_two_cast (n : Nat) : Int.tmod (n : Int) 2 = ((n % 2 : Nat) : Int) :=
  (Int.ofNat_tmod n 2).symm

theorem tmod_two_eq_one_iff (n : Nat) : Int.tmod (n : Int) 2 = 1 ↔ n % 2 = 1 := by
  rw [tmod_two_cast]; omega

theorem sourceAt_succ (n : Nat) : sourceAt (n + 1) = destAt n := by
  unfold sourceAt destAt
  rcases Nat.mod_two_eq_zero_or_one n with h | h
  · have h1 : (n + 1) % 2 ≠ 0 := by omega
    simp [h, h1]
  · have h1 : (n + 1) % 2 = 0 := by omega
    simp [h, h1]

theorem destAt_succ (n : Nat) : destAt (n + 1) = sourceAt n := by
  unfold sourceAt destAt
  rcases Nat.mod_two_eq_zero_or_one n with h | h
  · have h1 : (n + 1) % 2 ≠ 0 := by omega
    simp [h, h1]
  · have h1 : (n + 1) % 2 = 0 := by omega
    simp [h, h1]

theorem sourceAt_ne_destAt (n : Nat) : sourceAt n ≠ destAt n := by
  unfold sourceAt destAt
  split <;> simp

theorem dispatches_append (a b : List Event) :
    dispatches (a ++ b) = dispatches a ++ dispatches b := by
  induction a with
  | nil => rfl
  | cons e es ih => cases e <;> simp [dispatches, ih]

theorem dispatchTicks_append (a b : List Event) :
    dispatchTicks (a ++ b) = dispatchTicks a ++ dispatchTicks b := by
  induction a with
  | nil => rfl
  | cons e es ih => cases e <;> simp [dispatchTicks, ih]

theorem reads_append (a b : List Event) : reads (a ++ b) = reads a ++ reads b := by
  induction a with
  | nil => rfl
  | cons e es ih => cases e <;> simp [reads, ih]

theorem simInit_headInv {α : Type} (f : α → α) (g0 junk : α) :
    HeadInv f g0 0 (simInit g0 junk) :=
  ⟨rfl, rfl, rfl, rfl⟩

/-! ## The dispatch phase -/

theorem dispatchPhase_arg1 {α : Type} (f : α → α) (rt : Runtime) (g0 : α) (n : Nat)
    (s : Sim α) (h : HeadInv f g0 n s) : (dispatchPhase f rt s).arg1 = sourceAt (n + 1) := by
  rw [sourceAt_succ]
  simp only [dispatchPhase, h.tick, tmod_two_eq_one_iff, destAt]
  rcases Nat.mod_two_eq_zero_or_one n with h2 | h2 <;> simp [h2]

theorem dispatchPhase_arg2 {α : Type} (f : α → α) (rt : Runtime) (g0 : α) (n : Nat)
    (s : Sim α) (h : HeadInv f g0 n s) : (dispatchPhase f rt s).arg2 = destAt (n + 1) := by
  rw [destAt_succ]
  simp only [dispatchPhase, h.tick, tmod_two_eq_one_iff, sourceAt]
  rcases Nat.mod_two_eq_zero_or_one n with h2 | h2 <;> simp [h2]

theorem dispatchPhase_mem_src {α : Type} (f : α → α) (rt : Runtime) (g0 : α) (n : Nat)
    (s : Sim α) (h : HeadInv f g0 n s) :
    (dispatchPhase f rt s).mem (sourceAt n) = f^[n] g0 := by
  have hs := h.src
  have h2 := h.arg2
  unfold sourceAt destAt at *
  rcases Nat.mod_two_eq_zero_or_one n with hn | hn <;>
    simp_all [dispatchPhase, Sim.mem]

theorem dispatchPhase_mem_dst {α : Type} (f : α → α) (rt : Runtime) (g0 : α) (n : Nat)
    (s : Sim α) (h : HeadInv f g0 n s) :
    (dispatchPhase f rt s).mem (destAt n) = f^[n + 1] g0 := by
  have hs := h.src
  have h1 := h.arg1
  have h2 := h.arg2
  rw [Function.iterate_succ_apply']
  unfold sourceAt destAt at *
  rcases Nat.mod_two_eq_zero_or_one n with hn | hn <;>
    simp_all [dispatchPhase, Sim.mem]

theorem dispatchPhase_trace {α : Type} (f : α → α) (rt : Runtime) (g0 : α) (n : Nat)
    (s : Sim α) (h : HeadInv f g0 n s) :
    (dispatchPhase f rt s).trace
      = s.trace ++ [Event.dispatch (n : Int) (sourceAt n) (destAt n)] := by
  simp [dispatchPhase, h.tick, h.arg1, h.arg2]

theorem readTarget_cast (n : Nat) : readTarget (n : Int) = sourceAt n := by
  unfold readTarget sourceAt
  simp only [tmod_two_eq_one_iff]
  rcases Nat.mod_two_eq_zero_or_one n with h2 | h2 <;> simp [h2]

/-! ## One iteration of the tick loop -/

theorem afterLoop_state {α : Type} (s : Sim α) : (afterLoop s).state = s := by
  unfold afterLoop
  split <;> rfl

theorem loopBody_headless {α : Type} (f : α → α) (rt : Runtime) (s : Sim α) :
    loopBody f rt false s = .next { dispatchPhase f rt s with tick := s.tick + 1 } := by
  simp [loopBody]

theorem headInv_step {α : Type} (f : α → α) (rt : Runtime) (g0 : α) (n : Nat)
    (s s1 : Sim α) (h : HeadInv f g0 n s)
    (htick : s1.tick = s.tick + 1)
    (h1 : s1.arg1 = (dispatchPhase f rt s).arg1)
    (h2 : s1.arg2 = (dispatchPhase f rt s).arg2)
    (hg : s1.gridMem = (dispatchPhase f rt s).gridMem)
    (hw : s1.gridSwpMem = (dispatchPhase f rt s).gridSwpMem) :
    HeadInv f g0 (n + 1) s1 := by
  have hm : ∀ b, s1.mem b = (dispatchPhase f rt s).mem b := by
    intro b; cases b <;> simp [Sim.mem, hg, hw]
  refine ⟨?_, ?_, ?_, ?_⟩
  · rw [htick, h.tick]; push_cast; ring
  · rw [h1, dispatchPhase_arg1 f rt g0 n s h]
  · rw [h2, dispatchPhase_arg2 f rt g0 n s h]
  · rw [hm, sourceAt_succ, dispatchPhase_mem_dst f rt g0 n s h]

/-- In every mode and whatever the runtime answers, an iteration started
under the invariant adds exactly one dispatch, with the bindings of the
invariant, and a completed iteration re-establishes the invariant. -/
theorem loopBody_spec {α : Type} (f : α → α) (rt : Runtime) (output : Bool) (g0 : α)
    (n : Nat) (s : Sim α) (h : HeadInv f g0 n s) :
    dispatches (loopBody f rt output s).state.trace
        = dispatches s.trace ++ [(sourceAt n, destAt n)]
      ∧ dispatchTicks (loopBody f rt output s).state.trace
        = dispatchTicks s.trace ++ [(n : Int)]
      ∧ ∀ s1, loopBody f rt output s = .next s1 → HeadInv f g0 (n + 1) s1 := by
  have ht := dispatchPhase_trace f rt g0 n s h
  cases output with
  | false =>
    rw [loopBody_headless]
    refine ⟨?_, ?_, ?_⟩
    · simp [Step.state, ht, dispatches_append, dispatches]
    · simp [Step.state, ht, dispatchTicks_append, dispatchTicks]
    · intro s1 hs1
      injection hs1 with hs1
      subst hs1
      exact headInv_step f rt g0 n s _ h rfl rfl rfl rfl rfl
  | true =>
    unfold loopBody
    simp only [if_true]
    by_cases hr : rt.readBuffer s.tick.toNat = CL_SUCCESS
    · by_cases hq : rt.getch s.tick.toNat = KEY_Q
      · simp [hr, hq, Step.state, ht, dispatches_append, dispatches,
          dispatchTicks_append, dispatchTicks]
      · simp only [hr, hq, ne_eq, not_true_eq_false, if_false, Step.state]
        refine ⟨?_, ?_, ?_⟩
        · simp [ht, dispatches_append, dispatches]
        · simp [ht, dispatchTicks_append, dispatchTicks]
        · intro s1 hs1
          injection hs1 with hs1
          subst hs1
          exact headInv_step f rt g0 n s _ h rfl rfl rfl rfl rfl
    · simp [hr, Step.state, ht, dispatches_append, dispatches,
        dispatchTicks_append, dispatchTicks]

/-! ## Bounded runs -/

theorem mainLoop_succ_of_running {α : Type} (f : α → α) (rt : Runtime) (output : Bool)
    (T : Int) (n : Nat) (s0 s : Sim α)
    (h : mainLoop f rt output T n s0 = .running s) :
    mainLoop f rt output T (n + 1) s0 = mainLoop f rt output T 1 s := by
  induction n generalizing s0 with
  | zero =>
    simp only [mainLoop] at h
    injection h with h
    subst h
    rfl
  | succ n ih =>
    rw [mainLoop] at h
    rw [mainLoop]
    by_cases hc : loopCond output T s0 = true
    · simp only [hc, if_true] at h ⊢
      cases hb : loopBody f rt output s0 with
      | next s1 =>
        simp only [hb] at h ⊢
        exact ih s1 h
      | brk s1 =>
        simp only [hb] at h
        unfold afterLoop at h
        split at h <;> cases h
      | ret code s1 =>
        simp only [hb] at h
        cases h
    · rw [if_neg hc] at h
      unfold afterLoop at h
      split at h <;> cases h

theorem mainLoop_returned_mono {α : Type} (f : α → α) (rt : Runtime) (output : Bool)
    (T : Int) (n m : Nat) (s0 s : Sim α) (code : Int)
    (h : mainLoop f rt output T n s0 = .returned code s) :
    mainLoop f rt output T (n + m) s0 = .returned code s := by
  induction n generalizing s0 with
  | zero => simp [mainLoop] at h
  | succ n ih =>
    rw [mainLoop] at h
    rw [Nat.add_right_comm, mainLoop]
    by_cases hc : loopCond output T s0 = true
    · simp only [hc, if_true] at h ⊢
      cases hb : loopBody f rt output s0 with
      | next s1 =>
        simp only [hb] at h ⊢
        exact ih s1 h
      | brk s1 =>
        simp only [hb] at h ⊢
        exact h
      | ret code1 s1 =>
        simp only [hb] at h ⊢
        exact h
    · rw [if_neg hc] at h ⊢
      exact h

/-- The dispatches of every bounded run, in every mode and whatever the
runtime answers, are an initial segment of the alternating sequence, issued
at ticks `0, 1, 2, ...`. -/
theorem mainLoop_dispatches {α : Type} (f : α → α) (rt : Runtime) (output : Bool)
    (T : Int) (g0 : α) (fuel : Nat) :
    ∀ (n : Nat) (s : Sim α), HeadInv f g0 n s →
      dispatches s.trace = (List.range n).map (fun k => (sourceAt k, destAt k)) →
      dispatchTicks s.trace = (List.range n).map (fun k : Nat => (k : Int)) →
      ∃ m, dispatches (mainLoop f rt output T fuel s).state.trace
            = (List.range m).map (fun k => (sourceAt k, destAt k))
        ∧ dispatchTicks (mainLoop f rt output T fuel s).state.trace
            = (List.range m).map (fun k : Nat => (k : Int)) := by
  induction fuel with
  | zero =>
    intro n s _ hd ht
    exact ⟨n, hd, ht⟩
  | succ fuel ih =>
    intro n s h hd ht
    rw [mainLoop]
    obtain ⟨hb1, hb2, hb3⟩ := loopBody_spec f rt output g0 n s h
    have hd1 : dispatches (loopBody f rt output s).state.trace
        = (List.range (n + 1)).map (fun k => (sourceAt k, destAt k)) := by
      rw [hb1, hd, List.range_succ, List.map_append]
      rfl
    have ht1 : dispatchTicks (loopBody f rt output s).state.trace
        = (List.range (n + 1)).map (fun k : Nat => (k : Int)) := by
      rw [hb2, ht, List.range_succ, List.map_append]
      rfl
    by_cases hc : loopCond output T s = true
    · simp only [hc, if_true]
      cases hb : loopBody f rt output s with
      | next s1 =>
        simp only [hb, Step.state] at hd1 ht1
        exact ih (n + 1) s1 (hb3 s1 hb) hd1 ht1
      | brk s1 =>
        simp only [hb, Step.state] at hd1 ht1
        exact ⟨n + 1, by simpa [afterLoop_state] using hd1,
          by simpa [afterLoop_state] using ht1⟩
      | ret code s1 =>
        simp only [hb, Step.state] at hd1 ht1
        exact ⟨n + 1, by simpa [LoopResult.state] using hd1,
          by simpa [LoopResult.state] using ht1⟩
    · rw [if_neg hc]
      exact ⟨n, by simpa [afterLoop_state] using hd, by simpa [afterLoop_state] using ht⟩

/-- The tick counter counts the iterations: a run still going after `n`
iterations stands at the head of iteration `n`, in every mode and whatever
the runtime answers. -/
theorem mainLoop_running_headInv {α : Type} (f : α → α) (rt : Runtime) (output : Bool)
    (T : Int) (g0 : α) (n : Nat) :
    ∀ (m : Nat) (s0 s : Sim α), HeadInv f g0 m s0 →
      mainLoop f rt output T n s0 = .running s → HeadInv f g0 (m + n) s := by
  induction n with
  | zero =>
    intro m s0 s h hrun
    simp only [mainLoop] at hrun
    injection hrun with hrun
    subst hrun
    exact h
  | succ n ih =>
    intro m s0 s h hrun
    rw [mainLoop] at hrun
    by_cases hc : loopCond output T s0 = true
    · rw [if_pos hc] at hrun
      cases hb : loopBody f rt output s0 with
      | next s1 =>
        simp only [hb] at hrun
        have := ih (m + 1) s1 s ((loopBody_spec f rt output g0 m s0 h).2.2 s1 hb) hrun
        rw [show m + (n + 1) = m + 1 + n by omega]
        exact this
      | brk s1 =>
        simp only [hb] at hrun
        unfold afterLoop at hrun
        split at hrun <;> cases hrun
      | ret code s1 =>
        simp only [hb] at hrun
        cases hrun
    · rw [if_neg hc] at hrun
      unfold afterLoop at hrun
      split at hrun <;> cases hrun

theorem loopBody_mem {α : Type} (f : α → α) (rt : Runtime) (output : Bool) (s : Sim α) :
    (loopBody f rt output s).state.gridMem = (dispatchPhase f rt s).gridMem
      ∧ (loopBody f rt output s).state.gridSwpMem = (dispatchPhase f rt s).gridSwpMem := by
  unfold loopBody
  cases output with
  | false => simp [Step.state]
  | true =>
    simp only [if_true]
    split
    · simp [Step.state]
    · split <;> simp [Step.state]

theorem loopBody_initGrid {α : Type} (f : α → α) (rt : Runtime) (s : Sim α) :
    (loopBody f rt true s).state.initGrid
      = (dispatchPhase f rt s).mem (readTarget s.tick) := by
  unfold loopBody
  simp only [if_true]
  split
  · simp [Step.state]
  · split <;> simp [Step.state]

/-- Headless runs: after `n ≤ tickFinal + 1` iterations the loop is still
running, at the head of iteration `n`, having made the calls listed. -/
theorem headless_reach {α : Type} (f : α → α) (rt : Runtime) (T : Int) (g0 junk : α)
    (n : Nat) (hn : (n : Int) ≤ T + 1) :
    ∃ s, mainLoop f rt false T n (simInit g0 junk) = .running s
      ∧ HeadInv f g0 n s
      ∧ s.trace = (List.range n).map
          (fun k : Nat => Event.dispatch (k : Int) (sourceAt k) (destAt k))
      ∧ (∀ m, n = m + 1 →
          s.err = Int.lor (Int.lor (rt.enqueueNDRange m) (rt.setArg1 m)) (rt.setArg2 m)) := by
  induction n with
  | zero =>
    exact ⟨simInit g0 junk, rfl, simInit_headInv f g0 junk, rfl, by intro m hm; omega⟩
  | succ n ih =>
    obtain ⟨s, hrun, hinv, htr, _⟩ := ih (by push_cast at hn ⊢; omega)
    have hc : loopCond false T s = true := by
      simp only [loopCond, hinv.tick, Bool.or_false, decide_eq_true_eq]
      push_cast at hn; omega
    have hstep : mainLoop f rt false T 1 s
        = .running { dispatchPhase f rt s with tick := s.tick + 1 } := by
      rw [mainLoop, if_pos hc, loopBody_headless]
      rfl
    refine ⟨_, (mainLoop_succ_of_running f rt false T n _ s hrun).trans hstep, ?_, ?_, ?_⟩
    · exact headInv_step f rt g0 n s _ hinv rfl rfl rfl rfl rfl
    · simp only [dispatchPhase_trace f rt g0 n s hinv, htr, List.range_succ,
        List.map_append, List.map_cons, List.map_nil]
    · intro m hm
      have hmn : m = n := by omega
      subst hmn
      simp [dispatchPhase, hinv.tick]

/-- Interactive runs: while every read succeeds and no `q` is read, the loop
is still running after any number of iterations. -/
theorem interactive_reach {α : Type} (f : α → α) (rt : Runtime) (T : Int) (g0 junk : α)
    (n : Nat) (h : ∀ k, k < n → rt.readBuffer k = CL_SUCCESS ∧ rt.getch k ≠ KEY_Q) :
    ∃ s, mainLoop f rt true T n (simInit g0 junk) = .running s
      ∧ HeadInv f g0 n s
      ∧ dispatchTicks s.trace = (List.range n).map (fun k : Nat => (k : Int))
      ∧ reads s.trace = (List.range n).map sourceAt := by
  induction n with
  | zero =>
    exact ⟨simInit g0 junk, rfl, simInit_headInv f g0 junk, rfl, rfl⟩
  | succ n ih =>
    obtain ⟨s, hrun, hinv, hdt, hrd⟩ := ih (fun k hk => h k (by omega))
    obtain ⟨hr, hq⟩ := h n (by omega)
    have hc : loopCond true T s = true := by simp [loopCond]
    have htn : s.tick.toNat = n := by rw [hinv.tick]; rfl
    obtain ⟨_, hb2, hb3⟩ := loopBody_spec f rt true g0 n s hinv
    have ht := dispatchPhase_trace f rt g0 n s hinv
    have hnext : ∃ s1, loopBody f rt true s = .next s1
        ∧ reads s1.trace = reads s.trace ++ [sourceAt n] := by
      unfold loopBody
      simp only [if_true, htn, hr, hq, ne_eq, not_true_eq_false, if_false]
      refine ⟨_, rfl, ?_⟩
      simp [ht, reads_append, reads, hinv.tick, readTarget_cast]
    obtain ⟨s1, hs1, hrd1⟩ := hnext
    have hstep : mainLoop f rt true T 1 s = .running s1 := by
      rw [mainLoop, if_pos hc, hs1]
      rfl
    refine ⟨s1, (mainLoop_succ_of_running f rt true T n _ s hrun).trans hstep,
      hb3 s1 hs1, ?_, ?_⟩
    · rw [hs1] at hb2
      simp only [Step.state] at hb2
      rw [hb2, hdt, List.range_succ, List.map_append]
      rfl
    · rw [hrd1, hrd, List.range_succ, List.map_append]
      rfl

/-- In interactive mode main returns only from an iteration in which the
read failed or `q` was read. -/
theorem interactive_stop {α : Type} (f : α → α) (rt : Runtime) (T : Int) (fuel : Nat) :
    ∀ (s0 : Sim α) (code : Int) (s : Sim α),
      mainLoop f rt true T fuel s0 = .returned code s →
      rt.readBuffer s.tick.toNat ≠ CL_SUCCESS ∨ rt.getch s.tick.toNat = KEY_Q := by
  induction fuel with
  | zero =>
    intro s0 code s h
    simp [mainLoop] at h
  | succ fuel ih =>
    intro s0 code s h
    have hc : loopCond true T s0 = true := by simp [loopCond]
    rw [mainLoop, if_pos hc] at h
    by_cases hr : rt.readBuffer s0.tick.toNat = CL_SUCCESS
    · by_cases hq : rt.getch s0.tick.toNat = KEY_Q
      · have hb : ∃ s1, loopBody f rt true s0 = .brk s1 ∧ s1.tick = s0.tick := by
          unfold loopBody
          simp only [if_true, hr, hq, ne_eq, not_true_eq_false, if_false]
          exact ⟨_, rfl, rfl⟩
        obtain ⟨s1, hs1, ht1⟩ := hb
        rw [hs1] at h
        have hs : s = s1 := by
          simp only [afterLoop] at h
          split at h <;> (injection h with _ h; exact h.symm)
        right
        rw [hs, ht1]
        exact hq
      · have hb : ∃ s1, loopBody f rt true s0 = .next s1 := by
          unfold loopBody
          simp only [if_true, hr, hq, ne_eq, not_true_eq_false, if_false]
          exact ⟨_, rfl⟩
        obtain ⟨s1, hs1⟩ := hb
        rw [hs1] at h
        exact ih s1 code s h
    · have hb : ∃ s1, loopBody f rt true s0 = .ret EXIT_FAILURE s1 ∧ s1.tick = s0.tick := by
        unfold loopBody
        simp only [if_true, hr, ne_eq, not_false_eq_true]
        exact ⟨_, rfl, rfl⟩
      obtain ⟨s1, hs1, ht1⟩ := hb
      rw [hs1] at h
      injection h with _ h
      left
      rw [← h, ht1]
      exact hr

/-- Headless runs leave the loop at the head of iteration `T + 1`, through
the status test of line 285. -/
theorem headless_exit {α : Type} (f : α → α) (rt : Runtime) (T : Nat) (g0 junk : α) :
    ∃ s, mainLoop f rt false (T : Int) (T + 2) (simInit g0 junk) = afterLoop s
      ∧ s.tick = (T : Int) + 1
      ∧ s.trace = (List.range (T + 1)).map
          (fun k : Nat => Event.dispatch (k : Int) (sourceAt k) (destAt k))
      ∧ s.err = Int.lor (Int.lor (rt.enqueueNDRange T) (rt.setArg1 T)) (rt.setArg2 T) := by
  obtain ⟨s, hrun, hinv, htr, herr⟩ :=
    headless_reach f rt (T : Int) g0 junk (T + 1) (by push_cast; omega)
  have hc : ¬ (loopCond false (T : Int) s = true) := by
    simp only [loopCond, hinv.tick, Bool.or_false, decide_eq_true_eq]
    push_cast; omega
  refine ⟨s, ?_, ?_, htr, herr T rfl⟩
  · rw [mainLoop_succ_of_running f rt false (T : Int) (T + 1) _ s hrun, mainLoop, if_neg hc]
  · rw [hinv.tick]; push_cast; ring

theorem dispatchTicks_map_dispatch (n : Nat) (src dst : Nat → Buf) :
    dispatchTicks ((List.range n).map (fun k : Nat => Event.dispatch (k : Int) (src k) (dst k)))
      = (List.range n).map (fun k : Nat => (k : Int)) := by
  induction n with
  | zero => rfl
  | succ n ih =>
    simp [List.range_succ, dispatchTicks_append, ih, dispatchTicks]

theorem afterLoop_returned {α : Type} (s : Sim α) :
    ∃ code, afterLoop s = .returned code s
      ∧ (code = if s.err ≠ CL_SUCCESS then EXIT_FAILURE else 0) := by
  unfold afterLoop
  split
  · exact ⟨EXIT_FAILURE, rfl, rfl⟩
  · exact ⟨0, rfl, rfl⟩

/-! ## The claims -/

/-- C1 (buffer-role alternation).  In every bounded run of the tick loop from
the initial binding, interactive or headless and whatever the runtime
answers: the dispatch number `k` is the one issued at tick `k`, its source and
destination buffers are different, the first dispatch has source `grid` and
destination `gridSwp`, and the destination of dispatch `k` is the source of
dispatch `k + 1` whenever there is one. -/
theorem buffer_role_alternation {α : Type} (f : α → α) (rt : Runtime) (output : Bool)
    (T : Int) (g0 junk : α) (fuel k : Nat) (b : Buf × Buf)
    (hb : (dispatches (mainLoop f rt output T fuel (simInit g0 junk)).state.trace)[k]?
        = some b) :
    (dispatchTicks (mainLoop f rt output T fuel (simInit g0 junk)).state.trace)[k]?
        = some (k : Int)
      ∧ b.1 ≠ b.2
      ∧ (k = 0 → b = (Buf.grid, Buf.gridSwp))
      ∧ ∀ c, (dispatches (mainLoop f rt output T fuel (simInit g0 junk)).state.trace)[k + 1]?
          = some c → b.2 = c.1 := by
  obtain ⟨m, hm, hmt⟩ := mainLoop_dispatches f rt output T g0 fuel 0 (simInit g0 junk)
    (simInit_headInv f g0 junk) rfl rfl
  rw [hm] at hb ⊢
  rw [hmt]
  have key : ∀ (j : Nat) (x : Buf × Buf),
      ((List.range m).map (fun k => (sourceAt k, destAt k)))[j]? = some x →
      j < m ∧ x = (sourceAt j, destAt j) := by
    intro j x hx
    rw [List.getElem?_map] at hx
    by_cases hj : j < m
    · rw [List.getElem?_range hj] at hx
      simp only [Option.map_some', Option.some.injEq] at hx
      exact ⟨hj, hx.symm⟩
    · rw [List.getElem?_eq_none (by simpa using hj)] at hx
      simp at hx
  obtain ⟨hkm, hbe⟩ := key k b hb
  subst hbe
  refine ⟨?_, sourceAt_ne_destAt k, ?_, ?_⟩
  · rw [List.getElem?_map, List.getElem?_range hkm]
    rfl
  · intro hk
    subst hk
    rfl
  · intro c hc
    obtain ⟨_, hce⟩ := key (k + 1) c hc
    subst hce
    exact (sourceAt_succ k).symm

/-- Witness for C1: the headless run with horizon 3, at dispatches 1 and 2. -/
theorem buffer_role_alternation_witness :
    (dispatches (mainLoop (fun u : Unit => u) quietRuntime false 3 10
        (simInit () ())).state.trace)[1]? = some (Buf.gridSwp, Buf.grid)
      ∧ (dispatches (mainLoop (fun u : Unit => u) quietRuntime false 3 10
        (simInit () ())).state.trace)[2]? = some (Buf.grid, Buf.gridSwp)
      ∧ (dispatchTicks (mainLoop (fun u : Unit => u) quietRuntime false 3 10
        (simInit () ())).state.trace)[1]? = some ((1 : Nat) : Int)
      ∧ (Buf.gridSwp, Buf.grid).1 ≠ (Buf.gridSwp, Buf.grid).2
      ∧ (Buf.gridSwp, Buf.grid).2 = (Buf.grid, Buf.gridSwp).1 :=
  ⟨by decide, by decide,
    (buffer_role_alternation (fun u : Unit => u) quietRuntime false 3 () () 10 1
      (Buf.gridSwp, Buf.grid) (by decide)).1,
    (buffer_role_alternation (fun u : Unit => u) quietRuntime false 3 () () 10 1
      (Buf.gridSwp, Buf.grid) (by decide)).2.1,
    (buffer_role_alternation (fun u : Unit => u) quietRuntime false 3 () () 10 1
      (Buf.gridSwp, Buf.grid) (by decide)).2.2.2 (Buf.grid, Buf.gridSwp) (by decide)⟩

/-- C3 (headless tick count).  With rendering off and horizon `T`, whatever
the runtime answers: the loop is still running after any `n ≤ T + 1`
iterations, and with `T + 2` or more evaluations of its condition main leaves
the loop with `tick = T + 1`, having made exactly `T + 1` calls, all of them
kernel dispatches, at ticks `0, ..., T` in order; no read and no poll. -/
theorem headless_tick_count {α : Type} (f : α → α) (rt : Runtime) (T : Nat)
    (g0 junk : α) (extra : Nat) :
    (∀ n, n ≤ T + 1 → ∃ s, mainLoop f rt false (T : Int) n (simInit g0 junk) = .running s)
      ∧ ∃ code s, mainLoop f rt false (T : Int) (T + 2 + extra) (simInit g0 junk)
            = .returned code s
          ∧ s.tick = (T : Int) + 1
          ∧ dispatchTicks s.trace = (List.range (T + 1)).map (fun k : Nat => (k : Int))
          ∧ s.trace.length = T + 1
          ∧ (∀ e, e ∈ s.trace → e.isDispatch = true)
          ∧ reads s.trace = [] := by
  constructor
  · intro n hn
    obtain ⟨s, hs, _⟩ := headless_reach f rt (T : Int) g0 junk n (by omega)
    exact ⟨s, hs⟩
  · obtain ⟨s, hrun, htick, htr, _⟩ := headless_exit f rt T g0 junk
    obtain ⟨code, hcode, _⟩ := afterLoop_returned s
    rw [hcode] at hrun
    refine ⟨code, s, mainLoop_returned_mono f rt false (T : Int) (T + 2) extra _ s code hrun,
      htick, ?_, ?_, ?_, ?_⟩
    · rw [htr, dispatchTicks_map_dispatch]
    · simp [htr]
    · intro e he
      rw [htr, List.mem_map] at he
      obtain ⟨k, _, hk⟩ := he
      rw [← hk]
      rfl
    · rw [htr]
      generalize T + 1 = n
      induction n with
      | zero => rfl
      | succ n ih => simp [List.range_succ, reads_append, ih, reads]

/-- C8 (interactive non-termination).  With rendering on, for every `n`
(also beyond the horizon `T`): if in ticks `0, ..., n - 1` every read
succeeds and no `q` is read, the loop is still running after `n` iterations,
its condition is true, and the next iteration dispatches tick `n`.  And
whenever main returns in interactive mode, it does so from a tick at which
the read failed or `q` was read. -/
theorem interactive_non_termination {α : Type} (f : α → α) (rt : Runtime) (T : Int)
    (g0 junk : α) :
    (∀ n : Nat, (∀ k, k < n → rt.readBuffer k = CL_SUCCESS ∧ rt.getch k ≠ KEY_Q) →
      ∃ s, mainLoop f rt true T n (simInit g0 junk) = .running s
        ∧ s.tick = (n : Int)
        ∧ loopCond true T s = true
        ∧ dispatchTicks s.trace = (List.range n).map (fun k : Nat => (k : Int))
        ∧ dispatchTicks (mainLoop f rt true T (n + 1) (simInit g0 junk)).state.trace
            = (List.range (n + 1)).map (fun k : Nat => (k : Int)))
      ∧ ∀ (fuel : Nat) (code : Int) (s : Sim α),
          mainLoop f rt true T fuel (simInit g0 junk) = .returned code s →
          rt.readBuffer s.tick.toNat ≠ CL_SUCCESS ∨ rt.getch s.tick.toNat = KEY_Q := by
  constructor
  · intro n h
    obtain ⟨s, hrun, hinv, hdt, _⟩ := interactive_reach f rt T g0 junk n h
    have hc : loopCond true T s = true := by simp [loopCond]
    refine ⟨s, hrun, hinv.tick, hc, hdt, ?_⟩
    obtain ⟨_, hb2, _⟩ := loopBody_spec f rt true g0 n s hinv
    rw [mainLoop_succ_of_running f rt true T n _ s hrun, mainLoop, if_pos hc,
      List.range_succ, List.map_append, ← hdt]
    cases hb : loopBody f rt true s with
    | next s1 =>
      rw [hb] at hb2
      simpa [mainLoop, LoopResult.state, Step.state] using hb2
    | brk s1 =>
      rw [hb] at hb2
      simpa [afterLoop_state, Step.state] using hb2
    | ret code s1 =>
      rw [hb] at hb2
      simpa [LoopResult.state, Step.state] using hb2
  · intro fuel code s h
    exact interactive_stop f rt T fuel (simInit g0 junk) code s h

/-- Witness for C8: the runtime in which every call succeeds and no key is
pressed, five ticks with horizon 2. -/
theorem interactive_non_termination_witness :
    (∀ k, k < 5 → quietRuntime.readBuffer k = CL_SUCCESS ∧ quietRuntime.getch k ≠ KEY_Q)
      ∧ ∃ s, mainLoop (fun u : Unit => u) quietRuntime true 2 5 (simInit () ()) = .running s
        ∧ s.tick = ((5 : Nat) : Int)
        ∧ loopCond true 2 s = true
        ∧ dispatchTicks s.trace = (List.range 5).map (fun k : Nat => (k : Int))
        ∧ dispatchTicks (mainLoop (fun u : Unit => u) quietRuntime true 2 (5 + 1)
              (simInit () ())).state.trace
            = (List.range (5 + 1)).map (fun k : Nat => (k : Int)) :=
  ⟨fun _ _ => ⟨rfl, by simp [quietRuntime, KEY_Q]⟩,
    (interactive_non_termination (fun u : Unit => u) quietRuntime 2 () ()).1 5
      (fun _ _ => ⟨rfl, by simp [quietRuntime, KEY_Q]⟩)⟩

/-- C9 (generation bookkeeping).  Let the kernel be the total function `f`
and `g0` the uploaded lattice.  For every tick `k` the run reaches (in
headless mode `k ≤ T`; in interactive mode every earlier read succeeded and
no `q` was read earlier), the loop is at the head of iteration `k` and at the
end of that iteration the device buffers `(grid, gridSwp)` hold
`(f^k g0, f^(k+1) g0)` for even `k` and `(f^(k+1) g0, f^k g0)` for odd `k`; in
interactive mode the host array read back in tick `k` holds `f^k g0`, which
for `k = 0` is `g0`. -/
theorem generation_bookkeeping {α : Type} (f : α → α) (rt : Runtime) (output : Bool)
    (T : Int) (g0 junk : α) (k : Nat)
    (hh : output = false → (k : Int) ≤ T)
    (hi : output = true → ∀ j, j < k → rt.readBuffer j = CL_SUCCESS ∧ rt.getch j ≠ KEY_Q) :
    ∃ s, mainLoop f rt output T k (simInit g0 junk) = .running s
      ∧ s.tick = (k : Int)
      ∧ loopCond output T s = true
      ∧ (k % 2 = 0 →
          (loopBody f rt output s).state.gridMem = f^[k] g0
            ∧ (loopBody f rt output s).state.gridSwpMem = f^[k + 1] g0)
      ∧ (k % 2 = 1 →
          (loopBody f rt output s).state.gridMem = f^[k + 1] g0
            ∧ (loopBody f rt output s).state.gridSwpMem = f^[k] g0)
      ∧ (output = true → (loopBody f rt output s).state.initGrid = f^[k] g0) := by
  have hreach : ∃ s, mainLoop f rt output T k (simInit g0 junk) = .running s
      ∧ HeadInv f g0 k s := by
    cases output with
    | false =>
      obtain ⟨s, hs, hinv, _⟩ :=
        headless_reach f rt T g0 junk k (by have := hh rfl; omega)
      exact ⟨s, hs, hinv⟩
    | true =>
      obtain ⟨s, hs, hinv, _⟩ := interactive_reach f rt T g0 junk k (hi rfl)
      exact ⟨s, hs, hinv⟩
  obtain ⟨s, hrun, hinv⟩ := hreach
  have hsrc := dispatchPhase_mem_src f rt g0 k s hinv
  have hdst := dispatchPhase_mem_dst f rt g0 k s hinv
  obtain ⟨hg, hw⟩ := loopBody_mem f rt output s
  refine ⟨s, hrun, hinv.tick, ?_, ?_, ?_, ?_⟩
  · cases output with
    | false =>
      have := hh rfl
      simp only [loopCond, hinv.tick, Bool.or_false, decide_eq_true_eq]
      exact this
    | true => simp [loopCond]
  · intro hk
    rw [hg, hw]
    simp only [sourceAt, destAt, hk, if_true, Sim.mem] at hsrc hdst
    exact ⟨hsrc, hdst⟩
  · intro hk
    have hk0 : ¬ (k % 2 = 0) := by omega
    rw [hg, hw]
    simp only [sourceAt, destAt, hk0, if_false, Sim.mem] at hsrc hdst
    exact ⟨hdst, hsrc⟩
  · intro ho
    subst ho
    rw [loopBody_initGrid, hinv.tick, readTarget_cast]
    exact hsrc

/-- Witness for C9: the kernel `n ↦ n + 1` on the lattice type `Nat`, from
`g0 = 0`, interactive mode, tick 3. -/
theorem generation_bookkeeping_witness :
    ∃ s, mainLoop (fun n : Nat => n + 1) quietRuntime true 10 3 (simInit 0 99) = .running s
      ∧ s.tick = ((3 : Nat) : Int)
      ∧ loopCond true 10 s = true
      ∧ (3 % 2 = 0 →
          (loopBody (fun n : Nat => n + 1) quietRuntime true s).state.gridMem
              = (fun n : Nat => n + 1)^[3] 0
            ∧ (loopBody (fun n : Nat => n + 1) quietRuntime true s).state.gridSwpMem
              = (fun n : Nat => n + 1)^[3 + 1] 0)
      ∧ (3 % 2 = 1 →
          (loopBody (fun n : Nat => n + 1) quietRuntime true s).state.gridMem
              = (fun n : Nat => n + 1)^[3 + 1] 0
            ∧ (loopBody (fun n : Nat => n + 1) quietRuntime true s).state.gridSwpMem
              = (fun n : Nat => n + 1)^[3] 0)
      ∧ (true = true →
          (loopBody (fun n : Nat => n + 1) quietRuntime true s).state.initGrid
            = (fun n : Nat => n + 1)^[3] 0) :=
  generation_bookkeeping (fun n : Nat => n + 1) quietRuntime true 10 0 99 3
    (fun h => by cases h) (fun _ _ _ => ⟨rfl, by simp [quietRuntime, KEY_Q]⟩)

/-- C2 (readable-buffer correctness), evaluated on the code.  In the first
interactive iteration, with every call succeeding and no key pressed, the
kernel is dispatched with source `grid` and destination `gridSwp`, and the
buffer read back is `grid`, the source; the host array then holds the
uploaded lattice `0`, not the kernel's result `1`. -/
theorem readback_reads_source :
    (main (fun n : Nat => n + 1) quietRuntime 0 99 ["gol"] 1).trace
        = [Event.dispatch 0 Buf.grid Buf.gridSwp, Event.read 0 Buf.grid,
           Event.poll 0, Event.draw 0]
      ∧ (main (fun n : Nat => n + 1) quietRuntime 0 99 ["gol"] 1).hostGrid = some 0 := by
  constructor <;> rfl

/-- C4 (dispatch failures are fatal), evaluated on the code.  Headless, with
the dispatch of tick 0 failing and every other call succeeding: main goes on
to dispatch ticks 1 to 1000 and exits with status 0.  Interactive, with the
dispatch of tick 0 failing and `q` read at tick 1: main dispatches tick 1 and
exits with status 0. -/
theorem dispatch_failure_not_fatal :
    failFirstDispatch.enqueueNDRange 0 ≠ CL_SUCCESS
      ∧ (main (fun u : Unit => u) failFirstDispatch () () ["gol", "-o"] 1002).exitCode
          = some 0
      ∧ dispatchTicks (main (fun u : Unit => u) failFirstDispatch () () ["gol", "-o"] 1002).trace
          = (List.range 1001).map (fun k : Nat => (k : Int))
      ∧ failFirstThenQuit.enqueueNDRange 0 ≠ CL_SUCCESS
      ∧ (main (fun u : Unit => u) failFirstThenQuit () () ["gol"] 2).exitCode = some 0
      ∧ dispatchTicks (main (fun u : Unit => u) failFirstThenQuit () () ["gol"] 2).trace
          = [0, 1] := by
  obtain ⟨s, hrun, _, htr, herr⟩ :=
    headless_exit (fun u : Unit => u) failFirstDispatch 1000 () ()
  have herr0 : s.err = CL_SUCCESS := by
    rw [herr]
    decide
  have hafter : afterLoop s = .returned 0 s := by
    simp [afterLoop, herr0]
  have hmain : main (fun u : Unit => u) failFirstDispatch () () ["gol", "-o"] 1002
      = .looped false { global_work_size := (24, 24), local_work_size := (8, 8) }
          (.returned 0 s) := by
    have hp : parseArgs ["gol", "-o"] 1002
        = .done { argPtr := 2, output := false, kernelCount := 2 } := by decide
    have hl : mainLoop (fun u : Unit => u) failFirstDispatch false tickFinalDefault 1002
        (simInit () ()) = .returned 0 s := by
      rw [← hafter, ← hrun]
      rfl
    simp only [main, hp, hl]
    rfl
  refine ⟨by decide, ?_, ?_, by decide, by decide, by decide⟩
  · rw [hmain]; rfl
  · rw [hmain]
    simp only [MainResult.trace, LoopResult.state, htr]
    exact dispatchTicks_map_dispatch 1001 sourceAt destAt

/-- C5 (out-of-range levels are rejected), evaluated on the code.  With
`-n 7` and with `-n 0` main prints the message of line 141 and goes on to
line 230, where it reads `multiples[6]` and `multiples[-1]`, outside the
table. -/
theorem out_of_range_level_reaches_table {α : Type} (f : α → α) (rt : Runtime)
    (g0 junk : α) (extra : Nat) :
    main f rt g0 junk ["gol", "-n", "7"] (extra + 3) = .tableOutOfBounds true 6
      ∧ main f rt g0 junk ["gol", "-n", "0"] (extra + 3) = .tableOutOfBounds true (-1) := by
  constructor <;> rfl

/-- C6 (partition validity).  For every level `n` in `[1,6]`, that is
`kernelCount = n - 1`, the shape passed to the dispatch is square, with
global extent 24 and group extent `multiples[n - 1]`; the group extent
divides the global extent and both divide `GRID_SIZE = 24`. -/
theorem partition_validity (n : Int) (h1 : 1 ≤ n) (h6 : n ≤ 6) :
    ∃ g l, dispatchShape (n - 1)
          = some { global_work_size := (g, g), local_work_size := (l, l) }
      ∧ workGroupSizes = (g, g)
      ∧ workerSizes (n - 1) = some (l, l)
      ∧ multiples[(n - 1).toNat]? = some l
      ∧ g = 24
      ∧ l ∣ g ∧ g ∣ GRID_SIZE ∧ l ∣ GRID_SIZE := by
  have hn : n = 1 ∨ n = 2 ∨ n = 3 ∨ n = 4 ∨ n = 5 ∨ n = 6 := by omega
  rcases hn with h | h | h | h | h | h <;> subst h
  · exact ⟨24, 24, rfl, rfl, rfl, rfl, rfl, by decide, by decide, by decide⟩
  · exact ⟨24, 12, rfl, rfl, rfl, rfl, rfl, by decide, by decide, by decide⟩
  · exact ⟨24, 8, rfl, rfl, rfl, rfl, rfl, by decide, by decide, by decide⟩
  · exact ⟨24, 4, rfl, rfl, rfl, rfl, rfl, by decide, by decide, by decide⟩
  · exact ⟨24, 2, rfl, rfl, rfl, rfl, rfl, by decide, by decide, by decide⟩
  · exact ⟨24, 1, rfl, rfl, rfl, rfl, rfl, by decide, by decide, by decide⟩

/-- Witness for C6: level 4, group extent 4. -/
theorem partition_validity_witness :
    ∃ g l, dispatchShape (4 - 1)
          = some { global_work_size := (g, g), local_work_size := (l, l) }
      ∧ workGroupSizes = (g, g)
      ∧ workerSizes (4 - 1) = some (l, l)
      ∧ multiples[((4 : Int) - 1).toNat]? = some l
      ∧ g = 24
      ∧ l ∣ g ∧ g ∣ GRID_SIZE ∧ l ∣ GRID_SIZE :=
  partition_validity 4 (by decide) (by decide)

/-- C10 (termination of command-line parsing), evaluated on the code.  On the
argument list `x` the loop body leaves `argPtr` at 1, and the loop has not
ended after any number of iterations; on the argument list `-n` the loop
hands `argv[argc]` to `sscanf`. -/
theorem arg_loop_spins (fuel : Nat) :
    argStep ["gol", "x"] argInit = .advance argInit
      ∧ parseArgs ["gol", "x"] fuel = .spinning argInit
      ∧ ["gol", "-n"][argInit.argPtr + 1]? = none
      ∧ parseArgs ["gol", "-n"] (fuel + 1) = .nullArg argInit := by
  refine ⟨by decide, ?_, rfl, by rfl⟩
  have hl : ∀ n, argLoop ["gol", "x"] n argInit = .spinning argInit := by
    intro n
    induction n with
    | zero => rfl
    | succ n ih =>
      rw [argLoop]
      have h1 : argInit.argPtr < ["gol", "x"].length := by decide
      have h2 : argStep ["gol", "x"] argInit = .advance argInit := by decide
      rw [if_pos h1, h2]
      exact ih
  simp only [parseArgs]
  rw [if_pos (by decide)]
  exact hl fuel

/-- An argument list made of `-o` flags only is parsed to its end, leaving
`kernelCount` as it was. -/
theorem argLoop_only_o (prog : String) (m extra : Nat) :
    ∀ (d j : Nat) (s : ArgState), s.argPtr = j + 1 → j + d = m →
      argLoop (prog :: List.replicate m "-o") (d + 1 + extra) s
        = .done { argPtr := m + 1, output := if d = 0 then s.output else false,
                  kernelCount := s.kernelCount } := by
  intro d
  induction d with
  | zero =>
    intro j s hs hj
    have hf : 0 + 1 + extra = extra + 1 := by omega
    have hc : ¬ (s.argPtr < (prog :: List.replicate m "-o").length) := by
      simp only [List.length_cons, List.length_replicate]; omega
    rw [hf, argLoop, if_neg hc]
    have hp : s.argPtr = m + 1 := by omega
    cases s
    simp_all
  | succ d ih =>
    intro j s hs hj
    have hf : d + 1 + 1 + extra = (d + 1 + extra) + 1 := by omega
    have hc : s.argPtr < (prog :: List.replicate m "-o").length := by
      simp only [List.length_cons, List.length_replicate]; omega
    have hget : (prog :: List.replicate m "-o")[s.argPtr]? = some "-o" := by
      rw [hs, List.getElem?_cons_succ, List.getElem?_replicate]
      have hjm : j < m := by omega
      simp [hjm]
    have hstep : argStep (prog :: List.replicate m "-o") s
        = .advance { s with output := false, argPtr := s.argPtr + 1 } := by
      simp [argStep, hget]
    rw [hf, argLoop, if_pos hc, hstep]
    have := ih (j + 1) { s with output := false, argPtr := s.argPtr + 1 }
      (by simp [hs]) (by omega)
    simp only [this]
    simp

/-- C7 (concurrency-level mapping).  For every `n` in `[1,6]` the argument
list `-n n` is parsed to `kernelCount = n - 1` and main selects the extent
`24 / d` where `d` is the `n`-th of `1, 2, 3, 6, 12, 24`, that is the `n`-th of
`24, 12, 8, 4, 2, 1`.  An argument list without `-n` (empty, or `-o` flags
only) leaves `kernelCount = 2`, and main selects the table entry at index 2,
the extent 8. -/
theorem level_mapping (prog : String) (n : Nat) (h1 : 1 ≤ n) (h6 : n ≤ 6) (extra : Nat) :
    (∃ a d, parseArgs [prog, "-n", toString n] (extra + 3) = .done a
        ∧ a.kernelCount = (n : Int) - 1
        ∧ ([1, 2, 3, 6, 12, 24] : List Nat)[n - 1]? = some d
        ∧ workerSizes a.kernelCount = some (24 / d, 24 / d)
        ∧ ([24, 12, 8, 4, 2, 1] : List Nat)[n - 1]? = some (24 / d))
      ∧ ∀ m : Nat, ∃ a, parseArgs (prog :: List.replicate m "-o") (m + 1 + extra) = .done a
        ∧ a.kernelCount = 2
        ∧ workerSizes a.kernelCount = (multiples[2]?).map (fun x => (x, x))
        ∧ workerSizes a.kernelCount = some (8, 8) := by
  constructor
  · interval_cases n
    · exact ⟨_, 1, rfl, rfl, rfl, rfl, rfl⟩
    · exact ⟨_, 2, rfl, rfl, rfl, rfl, rfl⟩
    · exact ⟨_, 3, rfl, rfl, rfl, rfl, rfl⟩
    · exact ⟨_, 6, rfl, rfl, rfl, rfl, rfl⟩
    · exact ⟨_, 12, rfl, rfl, rfl, rfl, rfl⟩
    · exact ⟨_, 24, rfl, rfl, rfl, rfl, rfl⟩
  · intro m
    cases m with
    | zero => exact ⟨argInit, rfl, rfl, rfl, rfl⟩
    | succ m =>
      refine ⟨{ argPtr := m + 1 + 1, output := false, kernelCount := 2 }, ?_, rfl, rfl, rfl⟩
      simp only [parseArgs]
      rw [if_pos (by simp)]
      exact argLoop_only_o prog (m + 1) extra (m + 1) 0 argInit rfl (by omega)

/-- Witness for C7: level 5 selects the extent 2. -/
theorem level_mapping_witness :
    (∃ a d, parseArgs ["gol", "-n", toString 5] (0 + 3) = .done a
        ∧ a.kernelCount = ((5 : Nat) : Int) - 1
        ∧ ([1, 2, 3, 6, 12, 24] : List Nat)[5 - 1]? = some d
        ∧ workerSizes a.kernelCount = some (24 / d, 24 / d)
        ∧ ([24, 12, 8, 4, 2, 1] : List Nat)[5 - 1]? = some (24 / d))
      ∧ ∀ m : Nat, ∃ a, parseArgs ("gol" :: List.replicate m "-o") (m + 1 + 0) = .done a
        ∧ a.kernelCount = 2
        ∧ workerSizes a.kernelCount = (multiples[2]?).map (fun x => (x, x))
        ∧ workerSizes a.kernelCount = some (8, 8) :=
  level_mapping "gol" 5 (by decide) (by decide) 0

end GOL
